import Mathlib

/-!
Shallow embedding of the atlasgen tool (src/main.cpp): a font-atlas generator
that collects glyphs for requested codepoint ranges, packs their bitmaps into
a single-channel atlas, and serializes a delta-encoded JSON sidecar.

External collaborators (FreeType, libpng, stb_rect_pack, the file system)
appear as parameters: the charmap is a function from codepoint to glyph index
(0 = unmapped), glyph metrics a function from glyph index, the packing
primitive an abstract success predicate over canvas sizes, and file-system
outcomes explicit booleans. Everything taken from the source is referenced by
line number.
-/

namespace AtlasGen

/-- ParseInt (main.cpp 55-71) at the integer instantiations used by --size and
--range. Characters are byte values; the accumulator follows
`i *= 10; i += ch - '0'` in Int (no overflow at the inputs considered here).
The rejection guard is literally the source condition `ch < '0' && ch > '9'`. -/
def parseIntRun : Int → List Nat → Option Int
  | acc, [] => some acc
  | acc, c :: cs =>
      if c < 48 ∧ c > 57 then none
      else parseIntRun (acc * 10 + ((c : Int) - 48)) cs

/-- ParseInt entry point: starts from accumulator 0 (main.cpp 62). -/
def ParseInt (s : List Nat) : Option Int :=
  parseIntRun 0 s

/-- Per-glyph metrics as produced by the rasterizer for one glyph index
(the FT_Load_Glyph results read at main.cpp 272-276): bitmap width and rows,
bitmap_left and bitmap_top, and the raw 26.6 fixed-point advance.x. -/
structure GlyphMetrics where
  width : Nat
  height : Nat
  leftBearing : Int
  topBearing : Int
  advance : Int
deriving DecidableEq

/-- GlyphData (main.cpp 107-115); the `(size_t)-1` sentinel for rectIndex is
rendered as `none`. -/
structure GlyphData where
  rectIndex : Option Nat
  glyphIndex : Nat
  width : Nat
  height : Nat
  leftBearing : Int
  topBearing : Int
  advance : Int
deriving DecidableEq

/-- Codepoints of one inclusive range, `for (cp = first; cp <= second; ++cp)`
(main.cpp 261, 444). -/
def rangeCps (r : Nat × Nat) : List Nat :=
  (List.range (r.2 + 1 - r.1)).map (fun k => r.1 + k)

/-- All codepoints visited by the nested range loops (main.cpp 260-261 and
443-444), in visiting order. -/
def allCps (ranges : List (Nat × Nat)) : List Nat :=
  (ranges.map rangeCps).flatten

/-- The exact message printed at main.cpp 240. -/
def noCharmapMsg : String := "Font has no charmap"

/-- The FT_Get_First_Char convention: the first codepoint of the charmap in
increasing order, or 0 when the charmap is empty. The enumerated charmap is a
list of (codepoint, glyph index) pairs sorted by codepoint. -/
def ftFirstChar : List (Nat × Nat) → Nat
  | [] => 0
  | e :: _ => e.1

/-- The range grouping loop (main.cpp 244-252): split the enumerated
codepoints at every gap, closing a range whenever the next mapped codepoint is
not exactly the previous plus one. -/
def autoRanges (first last : Nat) : List Nat → List (Nat × Nat)
  | [] => [(first, last)]
  | next :: rest =>
      if next ≠ last + 1 then (first, last) :: autoRanges next next rest
      else autoRanges first next rest

/-- Auto-discovery (main.cpp 235-253): the run is rejected with the
no-charmap message exactly when FT_Get_First_Char yields codepoint 0
(main.cpp 239-242), which also covers the empty charmap. -/
def resolveAuto (ents : List (Nat × Nat)) : Except String (List (Nat × Nat)) :=
  match ents with
  | [] => Except.error noCharmapMsg
  | (c, _) :: rest =>
      if c = 0 then Except.error noCharmapMsg
      else Except.ok (autoRanges c c (rest.map Prod.fst))

/-- Process exit of the auto-discovery stage: -1 on the error path
(main.cpp 241), 0 meaning the run continues. -/
def autoDiscoverExit (ents : List (Nat × Nat)) : Int :=
  match resolveAuto ents with
  | Except.error _ => -1
  | Except.ok _ => 0

/-- RECT_PAD (main.cpp 259). -/
def RECT_PAD : Nat := 1

/-- Padded rectangle dimensions handed to the packer (main.cpp 281-285). -/
structure Rect where
  w : Nat
  h : Nat
deriving DecidableEq

/-- Collector state (main.cpp 255-257): the glyph table in insertion order
(std::map iteration order is modelled separately by tableOrder), the parallel
rect list, and the running width and height sums. -/
structure CollectState where
  glyphs : List (Nat × GlyphData)
  rects : List Rect
  totalW : Nat
  totalH : Nat

/-- Body of the collection loop for one codepoint (main.cpp 262-287):
map the codepoint through the charmap, skip if the glyph index was already
collected, otherwise store the metrics; glyphs of non-zero area additionally
append a padded rect and remember its index, and the running sums grow by the
unpadded glyph dimensions. -/
def collectStep (charmap : Nat → Nat) (metrics : Nat → GlyphMetrics)
    (st : CollectState) (cp : Nat) : CollectState :=
  if charmap cp ∈ st.glyphs.map Prod.fst then st
  else if (metrics (charmap cp)).width * (metrics (charmap cp)).height ≠ 0 then
    { glyphs := st.glyphs ++ [(charmap cp,
        { rectIndex := some st.rects.length
          glyphIndex := charmap cp
          width := (metrics (charmap cp)).width
          height := (metrics (charmap cp)).height
          leftBearing := (metrics (charmap cp)).leftBearing
          topBearing := (metrics (charmap cp)).topBearing
          advance := (metrics (charmap cp)).advance })]
      rects := st.rects ++ [⟨(metrics (charmap cp)).width + 2 * RECT_PAD,
        (metrics (charmap cp)).height + 2 * RECT_PAD⟩]
      totalW := st.totalW + (metrics (charmap cp)).width
      totalH := st.totalH + (metrics (charmap cp)).height }
  else
    { st with glyphs := st.glyphs ++ [(charmap cp,
        { rectIndex := none
          glyphIndex := charmap cp
          width := (metrics (charmap cp)).width
          height := (metrics (charmap cp)).height
          leftBearing := (metrics (charmap cp)).leftBearing
          topBearing := (metrics (charmap cp)).topBearing
          advance := (metrics (charmap cp)).advance })] }

/-- The whole collection pass (main.cpp 255-289). -/
def collect (charmap : Nat → Nat) (metrics : Nat → GlyphMetrics)
    (ranges : List (Nat × Nat)) : CollectState :=
  (allCps ranges).foldl (collectStep charmap metrics) ⟨[], [], 0, 0⟩

/-- Insertion into a list kept sorted by key; building block for the std::map
iteration order. -/
def insertSorted (x : Nat × GlyphData) :
    List (Nat × GlyphData) → List (Nat × GlyphData)
  | [] => [x]
  | y :: ys => if x.1 ≤ y.1 then x :: y :: ys else y :: insertSorted x ys

/-- The fixed iteration order of the glyph table: entries sorted by increasing
glyph index, as `std::map<FT_UInt, GlyphData>` iterates them. -/
def tableOrder (l : List (Nat × GlyphData)) : List (Nat × GlyphData) :=
  l.foldr insertSorted []

/-- glyphIdToJsonId (main.cpp 405, 418, 434): sequential ids are assigned in
table iteration order, so a collected glyph gets its 0-based position among
the table keys. Every lookup performed by the encoder is for a collected key. -/
def glyphIdToJsonId : List Nat → Nat → Nat
  | [], _ => 0
  | k :: ks, g => if k = g then 0 else glyphIdToJsonId ks g + 1

/-- The binary32 literal 1.2f equals 10066330 / 2^23 exactly. -/
def RP_GROWTH_NUM : Nat := 10066330

/-- One growth step `targetW *= RP_GROWTH` (main.cpp 305-306): the int target
is multiplied by the float 1.2f and truncated back to int. At the sizes our
statements evaluate this on, the float product is exactly representable, so
the truncation is the floor of the rational product. -/
def grow (n : Nat) : Nat := n * RP_GROWTH_NUM / 2 ^ 23

/-- The grow-and-retry loop (main.cpp 300-308) against an abstract packing
primitive: `ok w h` says whether `stbrp_pack_rects` succeeds for the fixed
rect list on a w-by-h canvas. Fuel bounds how many iterations we observe; the
C++ loop itself has no bound. -/
def packLoop (ok : Nat → Nat → Bool) : Nat → Nat → Nat → Option (Nat × Nat)
  | 0, _, _ => none
  | fuel + 1, w, h =>
      if ok w h then some (w, h) else packLoop ok fuel (grow w) (grow h)

/-- A packed rectangle with its placement, as stored in `rects` after
`stbrp_pack_rects` has filled in x and y. -/
structure PlacedRect where
  x : Nat
  y : Nat
  w : Nat
  h : Nat
deriving DecidableEq

/-- Atlas width (main.cpp 309-314): the maximum of x+w over the packed rects,
starting from 0, computed while the rects still carry their padding. -/
def atlasW (rects : List PlacedRect) : Nat :=
  rects.foldl (fun a r => max a (r.x + r.w)) 0

/-- Atlas height (main.cpp 309-314), same shape as atlasW. -/
def atlasH (rects : List PlacedRect) : Nat :=
  rects.foldl (fun a r => max a (r.y + r.h)) 0

/-- Padding removal (main.cpp 335-337), applied per rect in the compositor. -/
def unpadRect (r : PlacedRect) : PlacedRect :=
  ⟨r.x + RECT_PAD, r.y + RECT_PAD, r.w - 2 * RECT_PAD, r.h - 2 * RECT_PAD⟩

/-- Delta-encoder state: prevGlyph (zeroed at main.cpp 408-410) together with
prevRectX and prevRectY (main.cpp 409). -/
structure PrevState where
  width : Int
  height : Int
  leftBearing : Int
  topBearing : Int
  advance : Int
  rectX : Int
  rectY : Int

/-- The zeroed initial encoder state (main.cpp 408-410). -/
def prevZero : PrevState := ⟨0, 0, 0, 0, 0, 0, 0⟩

/-- One emitted 7-tuple of the glyphs array; the wire format flattens these
into one number sequence (main.cpp 411-412). -/
structure GlyphTuple where
  dW : Int
  dH : Int
  dLB : Int
  dTB : Int
  dAdv : Int
  dX : Int
  dY : Int
deriving DecidableEq

/-- The glyphs emission loop (main.cpp 413-435), structured view: per glyph in
table order, emit the difference of every field against the previous entry.
The advance difference is right-shifted by 6 AFTER the subtraction; `>> 6` on
int64 is floor division by 64, hence Int.fdiv. Glyphs without a rect
contribute rectX = rectY = 0, and `pos i` is the placement of rect i as read
back at main.cpp 424-428 (unpadded by the compositor). -/
def emitGlyphsLoop (pos : Nat → Nat × Nat) :
    PrevState → List GlyphData → List GlyphTuple
  | _, [] => []
  | prev, g :: gs =>
      let rxy := match g.rectIndex with
        | some i => pos i
        | none => (0, 0)
      let rx : Int := rxy.1
      let ry : Int := rxy.2
      { dW := (g.width : Int) - prev.width
        dH := (g.height : Int) - prev.height
        dLB := g.leftBearing - prev.leftBearing
        dTB := g.topBearing - prev.topBearing
        dAdv := Int.fdiv (g.advance - prev.advance) 64
        dX := rx - prev.rectX
        dY := ry - prev.rectY } ::
      emitGlyphsLoop pos ⟨(g.width : Int), (g.height : Int), g.leftBearing,
        g.topBearing, g.advance, rx, ry⟩ gs

/-- Cumulative sums from a running accumulator: how a consumer reconstructs
absolute values from a delta column. -/
def cumsumFrom (acc : Int) : List Int → List Int
  | [] => []
  | x :: xs => (acc + x) :: cumsumFrom (acc + x) xs

/-- Cumulative sums against the implicit zero baseline. -/
def cumsum (xs : List Int) : List Int := cumsumFrom 0 xs

/-- The codepoints emission loop (main.cpp 439-458), structured view: the
emitted (delta codepoint, delta id) pairs. Codepoints resolving to glyph
index 0 are skipped and do not update the running lastCp and lastGlyphJsonId
state (main.cpp 446-448). -/
def codepointPairsLoop (charmap : Nat → Nat) (jid : Nat → Nat) :
    Nat → Nat → List Nat → List (Int × Int)
  | _, _, [] => []
  | lastCp, lastId, cp :: cps =>
      if charmap cp = 0 then codepointPairsLoop charmap jid lastCp lastId cps
      else ((cp : Int) - (lastCp : Int),
            (jid (charmap cp) : Int) - (lastId : Int)) ::
        codepointPairsLoop charmap jid cp (jid (charmap cp)) cps

/-- Column-wise cumulative sums over pairs: the decoding a consumer performs
on the codepoints array. -/
def decodePairs (acc1 acc2 : Int) : List (Int × Int) → List (Int × Int)
  | [] => []
  | (d1, d2) :: rest =>
      (acc1 + d1, acc2 + d2) :: decodePairs (acc1 + d1) (acc2 + d2) rest

/-- Decimal rendering of an int64 as the fstream insertion operator prints it. -/
def intStr (n : Int) : String := toString n

/-- The glyphs emission loop at the byte level (main.cpp 406-435): the text
between the brackets of the glyphs array. The separating comma is guarded by
`nextJsonId != 0`, which counts emitted entries. -/
def glyphsJsonLoop (pos : Nat → Nat × Nat) :
    Nat → PrevState → List GlyphData → String
  | _, _, [] => ""
  | n, prev, g :: gs =>
      let rxy := match g.rectIndex with
        | some i => pos i
        | none => (0, 0)
      let rx : Int := rxy.1
      let ry : Int := rxy.2
      (if n ≠ 0 then "," else "")
        ++ intStr ((g.width : Int) - prev.width) ++ ","
        ++ intStr ((g.height : Int) - prev.height) ++ ","
        ++ intStr (g.leftBearing - prev.leftBearing) ++ ","
        ++ intStr (g.topBearing - prev.topBearing) ++ ","
        ++ intStr (Int.fdiv (g.advance - prev.advance) 64) ++ ","
        ++ intStr (rx - prev.rectX) ++ ","
        ++ intStr (ry - prev.rectY)
        ++ glyphsJsonLoop pos (n + 1) ⟨(g.width : Int), (g.height : Int),
             g.leftBearing, g.topBearing, g.advance, rx, ry⟩ gs

/-- The codepoints emission loop at the byte level (main.cpp 439-458): the
text between the brackets of the codepoints array. The separating comma is
guarded by `i != 0`, where `i` counts every visited codepoint, including the
skipped ones (the `++i` sits in the for-step at main.cpp 444 and runs on
`continue` as well). -/
def codepointsJsonLoop (charmap : Nat → Nat) (jid : Nat → Nat) :
    Nat → Nat → Nat → List Nat → String
  | _, _, _, [] => ""
  | i, lastCp, lastId, cp :: cps =>
      if charmap cp = 0 then
        codepointsJsonLoop charmap jid (i + 1) lastCp lastId cps
      else (if i ≠ 0 then "," else "")
        ++ intStr ((cp : Int) - (lastCp : Int)) ++ ","
        ++ intStr ((jid (charmap cp) : Int) - (lastId : Int))
        ++ codepointsJsonLoop charmap jid (i + 1) cp (jid (charmap cp)) cps

/-- The whole sidecar document (main.cpp 402-464). asc, desc and ht are the
fixed-point vertical metrics of the face; their `>> 6` is floor division
by 64. -/
def sidecar (charmap : Nat → Nat) (metrics : Nat → GlyphMetrics)
    (ranges : List (Nat × Nat)) (pos : Nat → Nat × Nat)
    (asc desc ht : Int) : String :=
  let st := collect charmap metrics ranges
  let keys := (tableOrder st.glyphs).map Prod.fst
  "\x7b\"version\":1,\"glyphs\":["
    ++ glyphsJsonLoop pos 0 prevZero ((tableOrder st.glyphs).map Prod.snd)
    ++ "],\"codepoints\":["
    ++ codepointsJsonLoop charmap (glyphIdToJsonId keys) 0 0 0 (allCps ranges)
    ++ "],\"metrics\":\x7b\"ascender\":" ++ intStr (Int.fdiv asc 64)
    ++ ",\"descender\":" ++ intStr (Int.fdiv desc 64)
    ++ ",\"height\":" ++ intStr (Int.fdiv ht 64)
    ++ "\x7d\x7d"

/-- The output stage (main.cpp 380-400 and 465): the PNG is written first,
and only then is the sidecar stream opened. pngOk is png_image_write_to_file
returning 1 (per the writeGrayscaleImage ok-or-error contract a failed write
leaves no file); mapOpenOk is the fstream opening. Result: the exit code and
the output files present on disk afterwards. -/
def outputStage (pngOk mapOpenOk : Bool) : Int × List String :=
  if pngOk = false then (-1, [])
  else if mapOpenOk = false then (-1, ["atlas.png"])
  else (0, ["atlas.png", "map.json"])

/-- Whole-run view for the output-atomicity claim: every failure path before
main.cpp 380 returns or exits before any output file is created, collapsed
into one boolean. -/
def runModel (earlierStagesOk pngOk mapOpenOk : Bool) : Int × List String :=
  if earlierStagesOk = false then (-1, []) else outputStage pngOk mapOpenOk

/-- Rect-list bookkeeping invariant of the collector: the rect indices stored
on the glyph records, read in insertion (first-encounter) order, are exactly
0, 1, 2, ... and the k-th rect carries the padded dimensions of the k-th
non-empty glyph record in that same order. -/
def collectRectInv (st : CollectState) : Prop :=
  st.glyphs.filterMap (fun p => p.2.rectIndex) = List.range st.rects.length
  ∧ st.rects = (st.glyphs.filter
      (fun p => p.2.width * p.2.height != 0)).map
      (fun p => Rect.mk (p.2.width + 2 * RECT_PAD) (p.2.height + 2 * RECT_PAD))

/- Concrete fixtures used by witnesses, counterexamples and bug evaluations. -/

/-- Charmap sending every codepoint to glyph 1 (one-glyph font). -/
def cmC3 : Nat → Nat := fun _ => 1

/-- Metrics of a single 1-by-1 pixel glyph. -/
def msC3 : Nat → GlyphMetrics := fun _ => ⟨1, 1, 0, 0, 0⟩

/-- A packing primitive that succeeds exactly when a 3-by-3 rect fits. -/
def okFitC3 : Nat → Nat → Bool := fun w h => decide (3 ≤ w) && decide (3 ≤ h)

/-- Two glyph records whose raw 26.6 advances are 32 and 64, that is 0.5 and
1.0 pixels. -/
def advGlyphs : List GlyphData :=
  [ { rectIndex := none, glyphIndex := 1, width := 0, height := 0,
      leftBearing := 0, topBearing := 0, advance := 32 },
    { rectIndex := none, glyphIndex := 2, width := 0, height := 0,
      leftBearing := 0, topBearing := 0, advance := 64 } ]

/-- Trivial placement function. -/
def posZero : Nat → Nat × Nat := fun _ => (0, 0)

/-- Charmap where codepoint 101 maps to glyph 7 and everything else is
unmapped (glyph 0). -/
def cm5 : Nat → Nat := fun cp => if cp = 101 then 7 else 0

/-- Metrics that are all zero (zero-area glyphs). -/
def msZero : Nat → GlyphMetrics := fun _ => ⟨0, 0, 0, 0, 0⟩

/-- Charmap mapping every codepoint to the missing-glyph index 0. -/
def cm6 : Nat → Nat := fun _ => 0

/-- Charmap mapping every codepoint to glyph 7. -/
def cm7 : Nat → Nat := fun _ => 7

/-- Charmap where codepoint 65 maps to glyph 50 and codepoint 66 to glyph 10:
first-encounter order differs from increasing glyph-index order. -/
def cm9 : Nat → Nat := fun cp => if cp = 65 then 50 else if cp = 66 then 10 else 0

/-- Metrics of a 1-by-1 pixel glyph for every index. -/
def msOne : Nat → GlyphMetrics := fun _ => ⟨1, 1, 0, 0, 0⟩

/-! Helper lemmas. -/

/-- The ParseInt digit guard `ch < '0' && ch > '9'` is unsatisfiable, so the
scan never rejects a character. -/
theorem parseIntRun_isSome : ∀ (s : List Nat) (acc : Int),
    (parseIntRun acc s).isSome = true
  | [], _ => rfl
  | c :: cs, acc => by
      have hcond : ¬(c < 48 ∧ c > 57) := by omega
      rw [parseIntRun, if_neg hcond]
      exact parseIntRun_isSome cs _

/-- Decoding the emitted codepoint pairs from any running state recovers the
absolute (codepoint, sequential id) pairs of exactly the codepoints whose
glyph index is non-zero. -/
theorem decode_codepointPairs (cm : Nat → Nat) (jid : Nat → Nat) :
    ∀ (cps : List Nat) (lastCp lastId : Nat),
      decodePairs (lastCp : Int) (lastId : Int)
          (codepointPairsLoop cm jid lastCp lastId cps)
        = (cps.filter (fun cp => cm cp != 0)).map
            (fun cp : Nat => ((cp : Int), (jid (cm cp) : Int)))
  | [], _, _ => rfl
  | cp :: cps, lastCp, lastId => by
      by_cases hg : cm cp = 0
      · rw [codepointPairsLoop, if_pos hg, List.filter_cons]
        simp only [hg, bne_self_eq_false, if_neg, Bool.false_eq_true,
          not_false_eq_true, reduceIte]
        exact decode_codepointPairs cm jid cps lastCp lastId
      · rw [codepointPairsLoop, if_neg hg, decodePairs, List.filter_cons]
        have hb : (cm cp != 0) = true := bne_iff_ne.mpr hg
        rw [if_pos hb, List.map_cons]
        have h1 : (lastCp : Int) + ((cp : Int) - (lastCp : Int)) = (cp : Int) := by
          ring
        have h2 : (lastId : Int) + ((jid (cm cp) : Int) - (lastId : Int))
            = (jid (cm cp) : Int) := by ring
        rw [h1, h2]
        exact congrArg _ (decode_codepointPairs cm jid cps cp (jid (cm cp)))

/-- One collection step appends the resolved glyph index to the key list
exactly when it is new. -/
theorem keys_collectStep (cm : Nat → Nat) (ms : Nat → GlyphMetrics)
    (st : CollectState) (cp : Nat) :
    (collectStep cm ms st cp).glyphs.map Prod.fst
      = st.glyphs.map Prod.fst
        ++ (if cm cp ∈ st.glyphs.map Prod.fst then [] else [cm cp]) := by
  by_cases hmem : cm cp ∈ st.glyphs.map Prod.fst
  · simp [collectStep, hmem]
  · by_cases harea : (ms (cm cp)).width * (ms (cm cp)).height ≠ 0
    · simp [collectStep, hmem, harea]
    · simp [collectStep, hmem, harea]

/-- Membership in the key list accumulated by the collection fold. -/
theorem mem_keys_foldl (cm : Nat → Nat) (ms : Nat → GlyphMetrics) :
    ∀ (cps : List Nat) (st : CollectState) (g : Nat),
      g ∈ (cps.foldl (collectStep cm ms) st).glyphs.map Prod.fst
        ↔ g ∈ st.glyphs.map Prod.fst ∨ ∃ cp ∈ cps, cm cp = g
  | [], st, g => by simp
  | cp :: cps, st, g => by
      rw [List.foldl_cons, mem_keys_foldl cm ms cps (collectStep cm ms st cp) g]
      rw [keys_collectStep]
      by_cases hmem : cm cp ∈ st.glyphs.map Prod.fst
      · rw [if_pos hmem, List.append_nil]
        constructor
        · rintro (h | ⟨x, hx, hg⟩)
          · exact Or.inl h
          · exact Or.inr ⟨x, List.mem_cons_of_mem cp hx, hg⟩
        · rintro (h | ⟨x, hx, hg⟩)
          · exact Or.inl h
          · rcases List.mem_cons.mp hx with hx1 | hx1
            · exact Or.inl (by rw [← hg, hx1]; exact hmem)
            · exact Or.inr ⟨x, hx1, hg⟩
      · rw [if_neg hmem]
        constructor
        · rintro (h | h)
          · rcases List.mem_append.mp h with h1 | h1
            · exact Or.inl h1
            · exact Or.inr ⟨cp, List.mem_cons_self cp cps,
                (List.mem_singleton.mp h1).symm⟩
          · obtain ⟨x, hx, hg⟩ := h
            exact Or.inr ⟨x, List.mem_cons_of_mem cp hx, hg⟩
        · rintro (h | ⟨x, hx, hg⟩)
          · exact Or.inl (List.mem_append.mpr (Or.inl h))
          · rcases List.mem_cons.mp hx with hx1 | hx1
            · exact Or.inl (List.mem_append.mpr (Or.inr
                (List.mem_singleton.mpr (by rw [← hg, hx1]))))
            · exact Or.inr ⟨x, hx1, hg⟩

/-- A glyph index is collected exactly when some requested codepoint resolves
to it; glyph index 0 is not special-cased. -/
theorem mem_keys_collect (cm : Nat → Nat) (ms : Nat → GlyphMetrics)
    (ranges : List (Nat × Nat)) (g : Nat) :
    g ∈ (collect cm ms ranges).glyphs.map Prod.fst
      ↔ ∃ cp ∈ allCps ranges, cm cp = g := by
  have h := mem_keys_foldl cm ms (allCps ranges) ⟨[], [], 0, 0⟩ g
  simpa using h

/-- The collected key list has no duplicates (the try_emplace skip). -/
theorem nodup_keys_foldl (cm : Nat → Nat) (ms : Nat → GlyphMetrics) :
    ∀ (cps : List Nat) (st : CollectState),
      (st.glyphs.map Prod.fst).Nodup
      → ((cps.foldl (collectStep cm ms) st).glyphs.map Prod.fst).Nodup
  | [], _, h => h
  | cp :: cps, st, h => by
      rw [List.foldl_cons]
      apply nodup_keys_foldl cm ms cps
      rw [keys_collectStep]
      by_cases hmem : cm cp ∈ st.glyphs.map Prod.fst
      · simpa [hmem] using h
      · rw [if_neg hmem, List.nodup_append]
        refine ⟨h, List.nodup_singleton _, ?_⟩
        intro x hx hx2
        rw [List.mem_singleton] at hx2
        exact hmem (hx2 ▸ hx)

/-- Nodup of the collected keys, from the empty initial state. -/
theorem nodup_keys_collect (cm : Nat → Nat) (ms : Nat → GlyphMetrics)
    (ranges : List (Nat × Nat)) :
    ((collect cm ms ranges).glyphs.map Prod.fst).Nodup :=
  nodup_keys_foldl cm ms (allCps ranges) ⟨[], [], 0, 0⟩ List.nodup_nil

/-- Sorted insertion is a permutation of consing. -/
theorem insertSorted_perm (x : Nat × GlyphData) :
    ∀ l, List.Perm (insertSorted x l) (x :: l)
  | [] => List.Perm.refl _
  | y :: ys => by
      rw [insertSorted]
      by_cases hle : x.1 ≤ y.1
      · rw [if_pos hle]
      · rw [if_neg hle]
        exact ((insertSorted_perm x ys).cons y).trans (List.Perm.swap x y ys)

/-- The table iteration order is a permutation of the insertion order. -/
theorem tableOrder_perm :
    ∀ l : List (Nat × GlyphData), List.Perm (tableOrder l) l
  | [] => List.Perm.refl _
  | p :: l => by
      show List.Perm (insertSorted p (tableOrder l)) (p :: l)
      exact (insertSorted_perm p _).trans ((tableOrder_perm l).cons p)

/-- Key lists before and after sorting are permutations of each other. -/
theorem keys_tableOrder_perm (l : List (Nat × GlyphData)) :
    List.Perm ((tableOrder l).map Prod.fst) (l.map Prod.fst) :=
  (tableOrder_perm l).map Prod.fst

/-- The glyphs array emits exactly one tuple per table entry. -/
theorem length_emitGlyphsLoop (pos : Nat → Nat × Nat) :
    ∀ (gs : List GlyphData) (prev : PrevState),
      (emitGlyphsLoop pos prev gs).length = gs.length
  | [], _ => rfl
  | g :: gs, prev => by
      rw [emitGlyphsLoop]
      simpa using length_emitGlyphsLoop pos gs _

/-- One collection step preserves the rect bookkeeping invariant. -/
theorem collectStep_rectInv (cm : Nat → Nat) (ms : Nat → GlyphMetrics)
    (st : CollectState) (cp : Nat) (h : collectRectInv st) :
    collectRectInv (collectStep cm ms st cp) := by
  obtain ⟨hA, hB⟩ := h
  unfold collectRectInv collectStep
  by_cases hmem : cm cp ∈ st.glyphs.map Prod.fst
  · rw [if_pos hmem]
    exact ⟨hA, hB⟩
  · rw [if_neg hmem]
    by_cases harea : (ms (cm cp)).width * (ms (cm cp)).height ≠ 0
    · rw [if_pos harea]
      refine ⟨?_, ?_⟩
      · simp only [List.filterMap_append, hA, List.length_append]
        simp [List.range_succ]
      · simp only [List.filter_append, List.map_append]
        rw [← hB]
        congr 1
        simp [bne_iff_ne, harea]
    · rw [if_neg harea]
      refine ⟨?_, ?_⟩
      · simpa [List.filterMap_append] using hA
      · simp only [List.filter_append, List.map_append]
        rw [← hB]
        have hz : (ms (cm cp)).width * (ms (cm cp)).height = 0 := by omega
        simp [hz]

/-- The collection fold preserves the rect bookkeeping invariant. -/
theorem foldl_rectInv (cm : Nat → Nat) (ms : Nat → GlyphMetrics) :
    ∀ (cps : List Nat) (st : CollectState), collectRectInv st
      → collectRectInv (cps.foldl (collectStep cm ms) st)
  | [], _, h => h
  | cp :: cps, st, h =>
      foldl_rectInv cm ms cps (collectStep cm ms st cp)
        (collectStep_rectInv cm ms st cp h)

/-- Folding max from any start equals maxing the start with the fold from 0. -/
theorem foldl_max_shift : ∀ (l : List Nat) (a : Nat),
    l.foldl max a = max a (l.foldl max 0)
  | [], a => by simp
  | x :: t, a => by
      rw [List.foldl_cons, List.foldl_cons,
        foldl_max_shift t (max a x), foldl_max_shift t (max 0 x)]
      omega

/-- Every member is bounded by the max fold. -/
theorem mem_le_foldl_max : ∀ (l : List Nat) (x : Nat), x ∈ l → x ≤ l.foldl max 0
  | [], x, h => absurd h (List.not_mem_nil x)
  | y :: t, x, h => by
      rw [List.foldl_cons, foldl_max_shift t (max 0 y)]
      rcases List.mem_cons.mp h with h1 | h1
      · omega
      · have := mem_le_foldl_max t x h1
        omega

/-- When every element is at least one, decrementing all elements decrements
the max fold. -/
theorem foldl_max_map_sub_one : ∀ l : List Nat, (∀ x ∈ l, 1 ≤ x)
    → (l.map (fun x => x - 1)).foldl max 0 = l.foldl max 0 - 1
  | [], _ => rfl
  | x :: t, h => by
      rw [List.map_cons, List.foldl_cons, List.foldl_cons,
        foldl_max_shift (t.map (fun x => x - 1)) (max 0 (x - 1)),
        foldl_max_shift t (max 0 x),
        foldl_max_map_sub_one t (fun y hy => h y (List.mem_cons_of_mem x hy))]
      have hx : 1 ≤ x := h x (List.mem_cons_self x t)
      omega

/-- The atlas width as a max fold over the x plus w column. -/
theorem atlasW_eq (rects : List PlacedRect) :
    atlasW rects = (rects.map (fun r => r.x + r.w)).foldl max 0 := by
  rw [atlasW, List.foldl_map]

/-- The atlas height as a max fold over the y plus h column. -/
theorem atlasH_eq (rects : List PlacedRect) :
    atlasH rects = (rects.map (fun r => r.y + r.h)).foldl max 0 := by
  rw [atlasH, List.foldl_map]

/-! Claim theorems. -/

/-- C1: the encoder emits `(advance_i - advance_prev) >> 6` for the advance
column (main.cpp 423), so cumulatively summing the emitted advance deltas does
not reconstruct the whole-pixel advances. Evaluated at two glyphs whose raw
26.6 advances are 32 and 64: the emitted column is [0, 0], its cumulative sums
are [0, 0], yet the whole-pixel advances (advance >> 6) are [0, 1]. -/
theorem c1_advance_delta_lossy :
    (emitGlyphsLoop posZero prevZero advGlyphs).map GlyphTuple.dAdv = [0, 0]
    ∧ cumsum ((emitGlyphsLoop posZero prevZero advGlyphs).map GlyphTuple.dAdv)
        = [0, 0]
    ∧ advGlyphs.map (fun g => Int.fdiv g.advance 64) = [0, 1]
    ∧ cumsum ((emitGlyphsLoop posZero prevZero advGlyphs).map GlyphTuple.dAdv)
        ≠ advGlyphs.map (fun g => Int.fdiv g.advance 64) := by
  refine ⟨by decide, by decide, by decide, by decide⟩

/-- C2 counterexample: a run where the PNG write succeeds and the sidecar
stream then fails to open exits non-zero but leaves atlas.png on disk without
map.json, so a failing run can produce one output file without the other. -/
theorem c2_counterexample :
    runModel true true false = (-1, ["atlas.png"])
    ∧ (runModel true true false).1 ≠ 0
    ∧ "atlas.png" ∈ (runModel true true false).2
    ∧ "map.json" ∉ (runModel true true false).2 := by
  refine ⟨by decide, by decide, by decide, by decide⟩

/-- C2 (amended): failures before the output stage leave no files, a PNG
failure leaves no files, both files exist exactly when every stage succeeds
(exit 0), and the single partial-output state is atlas.png alone, reached
exactly when the PNG write succeeds and the sidecar open then fails. -/
theorem c2_output_pairing (e p m : Bool) :
    ((runModel e p m).1 = 0 ↔ (e && p && m) = true)
    ∧ ((runModel e p m).2 = ["atlas.png", "map.json"] ↔ (e && p && m) = true)
    ∧ ((runModel e p m).2 = ["atlas.png"] ↔ (e && p && !m) = true)
    ∧ ((runModel e p m).2 = ([] : List String) ↔ (!e || !p) = true) := by
  cases e <;> cases p <;> cases m <;> refine ⟨by decide, by decide, by decide, by decide⟩

/-- C2 witness: the characterization evaluated at the partial-output state. -/
theorem c2_output_pairing_witness :
    ((runModel true true false).1 = 0 ↔ (true && true && false) = true)
    ∧ ((runModel true true false).2 = ["atlas.png", "map.json"]
        ↔ (true && true && false) = true)
    ∧ ((runModel true true false).2 = ["atlas.png"]
        ↔ (true && true && !false) = true)
    ∧ ((runModel true true false).2 = ([] : List String)
        ↔ (!true || !true) = true) :=
  c2_output_pairing true true false

/-- C3: the grow-and-retry loop does not terminate for every non-empty rect
list. A single 1-by-1-pixel glyph yields the padded rect list [3x3] with
totalW = totalH = 1, so the initial canvas estimate is 1x1; one growth step
is `(int)(1 * 1.2f) = 1`, so the canvas never grows, and any packing primitive
that needs a width of at least 3 to place a 3-wide rect fails forever. -/
theorem c3_growth_stalls (ok : Nat → Nat → Bool)
    (hok : ∀ w h, ok w h = true → 3 ≤ w) :
    ((collect cmC3 msC3 [(65, 65)]).rects = [⟨3, 3⟩]
      ∧ (collect cmC3 msC3 [(65, 65)]).totalW = 1
      ∧ (collect cmC3 msC3 [(65, 65)]).totalH = 1
      ∧ Nat.sqrt (collect cmC3 msC3 [(65, 65)]).totalW = 1
      ∧ grow 1 = 1)
    ∧ ∀ fuel, packLoop ok fuel 1 1 = none := by
  refine ⟨⟨by decide, by decide, by decide, by decide, by decide⟩, ?_⟩
  have h11 : ok 1 1 = false := by
    cases h : ok 1 1 with
    | false => rfl
    | true => exact absurd (hok 1 1 h) (by decide)
  have hg : grow 1 = 1 := by decide
  intro fuel
  induction fuel with
  | zero => rfl
  | succ n ih =>
      calc packLoop ok (n + 1) 1 1
          = packLoop ok n (grow 1) (grow 1) := by simp [packLoop, h11]
        _ = packLoop ok n 1 1 := by rw [hg]
        _ = none := ih

/-- C3 witness: the stall observed with a concrete fit-respecting primitive. -/
theorem c3_growth_stalls_witness :
    okFitC3 3 3 = true ∧ packLoop okFitC3 10 1 1 = none := by
  have hok : ∀ w h, okFitC3 w h = true → 3 ≤ w := by
    intro w h hw
    simp only [okFitC3, Bool.and_eq_true, decide_eq_true_eq] at hw
    exact hw.1
  exact ⟨by decide, (c3_growth_stalls okFitC3 hok).2 10⟩

/-- C4 counterexample: with one packed (padded) rect placed at the origin
with size 3x3, the emitted atlas width is 3 (computed before padding removal,
main.cpp 309-314), while the maximum of x+w over the final unpadded
placements is 2, so the claimed equality fails. -/
theorem c4_counterexample :
    atlasW [⟨0, 0, 3, 3⟩] = 3
    ∧ atlasH [⟨0, 0, 3, 3⟩] = 3
    ∧ atlasW (([⟨0, 0, 3, 3⟩] : List PlacedRect).map unpadRect) = 2
    ∧ atlasW [⟨0, 0, 3, 3⟩]
        ≠ atlasW (([⟨0, 0, 3, 3⟩] : List PlacedRect).map unpadRect) := by
  refine ⟨by decide, by decide, by decide, by decide⟩

/-- C4 (amended): the emitted atlas dimensions are the bounding box of the
still-padded placements, which exceeds the tight bounding box of the unpadded
placements by exactly the 1-pixel pad on the right and bottom; no unpadded
rect extends beyond the emitted dimensions. -/
theorem c4_padded_bbox (rects : List PlacedRect) (hne : rects ≠ [])
    (hw : ∀ r ∈ rects, 2 ≤ r.w) (hh : ∀ r ∈ rects, 2 ≤ r.h) :
    atlasW rects = atlasW (rects.map unpadRect) + RECT_PAD
    ∧ atlasH rects = atlasH (rects.map unpadRect) + RECT_PAD
    ∧ ∀ r ∈ rects.map unpadRect,
        r.x + r.w ≤ atlasW rects ∧ r.y + r.h ≤ atlasH rects := by
  have hWcol : (rects.map unpadRect).map (fun r => r.x + r.w)
      = (rects.map (fun r => r.x + r.w)).map (fun x => x - 1) := by
    rw [List.map_map, List.map_map]
    apply List.map_congr_left
    intro r hr
    have h2 : 2 ≤ r.w := hw r hr
    simp only [Function.comp_apply, unpadRect, RECT_PAD]
    omega
  have hHcol : (rects.map unpadRect).map (fun r => r.y + r.h)
      = (rects.map (fun r => r.y + r.h)).map (fun x => x - 1) := by
    rw [List.map_map, List.map_map]
    apply List.map_congr_left
    intro r hr
    have h2 : 2 ≤ r.h := hh r hr
    simp only [Function.comp_apply, unpadRect, RECT_PAD]
    omega
  have hW1 : ∀ x ∈ rects.map (fun r => r.x + r.w), 1 ≤ x := by
    intro x hx
    obtain ⟨r, hr, rfl⟩ := List.mem_map.mp hx
    have := hw r hr
    omega
  have hH1 : ∀ x ∈ rects.map (fun r => r.y + r.h), 1 ≤ x := by
    intro x hx
    obtain ⟨r, hr, rfl⟩ := List.mem_map.mp hx
    have := hh r hr
    omega
  obtain ⟨r0, hr0⟩ := List.exists_mem_of_ne_nil rects hne
  have hW2 : 2 ≤ (rects.map (fun r => r.x + r.w)).foldl max 0 := by
    have hle := mem_le_foldl_max (rects.map (fun r => r.x + r.w)) (r0.x + r0.w)
      (List.mem_map_of_mem _ hr0)
    have := hw r0 hr0
    omega
  have hH2 : 2 ≤ (rects.map (fun r => r.y + r.h)).foldl max 0 := by
    have hle := mem_le_foldl_max (rects.map (fun r => r.y + r.h)) (r0.y + r0.h)
      (List.mem_map_of_mem _ hr0)
    have := hh r0 hr0
    omega
  refine ⟨?_, ?_, ?_⟩
  · rw [atlasW_eq, atlasW_eq, hWcol, foldl_max_map_sub_one _ hW1]
    simp only [RECT_PAD]
    omega
  · rw [atlasH_eq, atlasH_eq, hHcol, foldl_max_map_sub_one _ hH1]
    simp only [RECT_PAD]
    omega
  · intro r hrm
    obtain ⟨s, hs, rfl⟩ := List.mem_map.mp hrm
    have hlw := mem_le_foldl_max (rects.map (fun r => r.x + r.w)) (s.x + s.w)
      (List.mem_map_of_mem _ hs)
    have hlh := mem_le_foldl_max (rects.map (fun r => r.y + r.h)) (s.y + s.h)
      (List.mem_map_of_mem _ hs)
    have h2w : 2 ≤ s.w := hw s hs
    have h2h : 2 ≤ s.h := hh s hs
    constructor
    · rw [atlasW_eq]
      simp only [unpadRect, RECT_PAD]
      omega
    · rw [atlasH_eq]
      simp only [unpadRect, RECT_PAD]
      omega

/-- C4 witness: the amended bounding-box relation at one placed 3x3 rect. -/
theorem c4_padded_bbox_witness :
    atlasW [⟨0, 0, 3, 3⟩]
        = atlasW (([⟨0, 0, 3, 3⟩] : List PlacedRect).map unpadRect) + RECT_PAD
    ∧ atlasH [⟨0, 0, 3, 3⟩]
        = atlasH (([⟨0, 0, 3, 3⟩] : List PlacedRect).map unpadRect) + RECT_PAD
    ∧ ∀ r ∈ ([⟨0, 0, 3, 3⟩] : List PlacedRect).map unpadRect,
        r.x + r.w ≤ atlasW [⟨0, 0, 3, 3⟩] ∧ r.y + r.h ≤ atlasH [⟨0, 0, 3, 3⟩] :=
  c4_padded_bbox [⟨0, 0, 3, 3⟩] (by decide) (by decide) (by decide)

/-- C5: the codepoints comma is guarded by the visit counter `i`, which also
counts skipped codepoints, so when the first requested codepoint resolves to
glyph index 0 and a later one does not, the array opens with a separator:
for the range 100-101 with 100 unmapped and 101 on glyph 7 the section text
is ",101,1" and the sidecar contains "codepoints":[,101,1] — not a
well-formed comma-separated list of numbers. -/
theorem c5_leading_comma :
    codepointsJsonLoop cm5
        (glyphIdToJsonId ((tableOrder (collect cm5 msZero [(100, 101)]).glyphs).map Prod.fst))
        0 0 0 (allCps [(100, 101)]) = ",101,1"
    ∧ sidecar cm5 msZero [(100, 101)] posZero 0 0 0
        = "\x7b\"version\":1,\"glyphs\":[0,0,0,0,0,0,0,0,0,0,0,0,0,0],\"codepoints\":[,101,1],\"metrics\":\x7b\"ascender\":0,\"descender\":0,\"height\":0\x7d\x7d"
    ∧ (codepointsJsonLoop cm5
        (glyphIdToJsonId ((tableOrder (collect cm5 msZero [(100, 101)]).glyphs).map Prod.fst))
        0 0 0 (allCps [(100, 101)])).take 1 = "," := by
  refine ⟨by decide, by decide, by decide⟩

/-- C6: glyph index 0 is collected and emitted like any other glyph — it is a
table key whenever some requested codepoint resolves to it and the glyphs
array has one tuple per table entry — while the decoded codepoints array
lists exactly the requested codepoints whose glyph index is non-zero. -/
theorem c6_glyph0_asymmetry (cm : Nat → Nat) (ms : Nat → GlyphMetrics)
    (ranges : List (Nat × Nat)) (pos : Nat → Nat × Nat)
    (h : ∃ cp ∈ allCps ranges, cm cp = 0) :
    0 ∈ (tableOrder (collect cm ms ranges).glyphs).map Prod.fst
    ∧ (emitGlyphsLoop pos prevZero
        ((tableOrder (collect cm ms ranges).glyphs).map Prod.snd)).length
        = (tableOrder (collect cm ms ranges).glyphs).length
    ∧ (decodePairs 0 0 (codepointPairsLoop cm
          (glyphIdToJsonId ((tableOrder (collect cm ms ranges).glyphs).map Prod.fst))
          0 0 (allCps ranges))).map Prod.fst
        = ((allCps ranges).filter (fun cp => cm cp != 0)).map
            (fun cp : Nat => (cp : Int)) := by
  refine ⟨?_, ?_, ?_⟩
  · have hk : 0 ∈ (collect cm ms ranges).glyphs.map Prod.fst :=
      (mem_keys_collect cm ms ranges 0).mpr h
    exact (keys_tableOrder_perm (collect cm ms ranges).glyphs).mem_iff.mpr hk
  · rw [length_emitGlyphsLoop, List.length_map]
  · have hd := decode_codepointPairs cm
      (glyphIdToJsonId ((tableOrder (collect cm ms ranges).glyphs).map Prod.fst))
      (allCps ranges) 0 0
    simp only [Nat.cast_zero] at hd
    rw [hd, List.map_map]
    rfl

/-- C6 witness: the asymmetry at a charmap sending everything to glyph 0. -/
theorem c6_glyph0_asymmetry_witness :
    0 ∈ (tableOrder (collect cm6 msZero [(65, 65)]).glyphs).map Prod.fst
    ∧ (emitGlyphsLoop posZero prevZero
        ((tableOrder (collect cm6 msZero [(65, 65)]).glyphs).map Prod.snd)).length
        = (tableOrder (collect cm6 msZero [(65, 65)]).glyphs).length
    ∧ (decodePairs 0 0 (codepointPairsLoop cm6
          (glyphIdToJsonId ((tableOrder (collect cm6 msZero [(65, 65)]).glyphs).map Prod.fst))
          0 0 (allCps [(65, 65)]))).map Prod.fst
        = ((allCps [(65, 65)]).filter (fun cp => cm6 cp != 0)).map
            (fun cp : Nat => (cp : Int)) :=
  c6_glyph0_asymmetry cm6 msZero [(65, 65)] posZero ⟨65, by decide, rfl⟩

/-- C7 counterexample: codepoints 65 and 66 both map to glyph index 0; the
glyphs array holds exactly one entry for that glyph, yet the decoded
codepoints array is empty, so neither codepoint appears in it — the claim
fails for codepoint pairs sharing glyph index 0. -/
theorem c7_counterexample :
    cm6 65 = cm6 66
    ∧ (65 : Nat) ≠ 66
    ∧ 65 ∈ allCps [(65, 66)]
    ∧ 66 ∈ allCps [(65, 66)]
    ∧ ((tableOrder (collect cm6 msZero [(65, 66)]).glyphs).map Prod.fst).count (cm6 65) = 1
    ∧ decodePairs 0 0 (codepointPairsLoop cm6
        (glyphIdToJsonId ((tableOrder (collect cm6 msZero [(65, 66)]).glyphs).map Prod.fst))
        0 0 (allCps [(65, 66)])) = [] := by
  refine ⟨by decide, by decide, by decide, by decide, by decide, by decide⟩

/-- C7 (amended): for distinct requested codepoints a and b resolving to the
same glyph index g with g non-zero, the glyph table holds exactly one entry
keyed g, and both codepoints appear in the decoded codepoints array paired
with the same sequential id, namely the 0-based position of g in the table
iteration order. -/
theorem c7_dedup (cm : Nat → Nat) (ms : Nat → GlyphMetrics)
    (ranges : List (Nat × Nat)) (a b g : Nat)
    (ha : a ∈ allCps ranges) (hb : b ∈ allCps ranges) (_hab : a ≠ b)
    (hga : cm a = g) (hgb : cm b = g) (hg : g ≠ 0) :
    ((tableOrder (collect cm ms ranges).glyphs).map Prod.fst).count g = 1
    ∧ ((a : Int),
        (glyphIdToJsonId ((tableOrder (collect cm ms ranges).glyphs).map Prod.fst) g : Int))
        ∈ decodePairs 0 0 (codepointPairsLoop cm
            (glyphIdToJsonId ((tableOrder (collect cm ms ranges).glyphs).map Prod.fst))
            0 0 (allCps ranges))
    ∧ ((b : Int),
        (glyphIdToJsonId ((tableOrder (collect cm ms ranges).glyphs).map Prod.fst) g : Int))
        ∈ decodePairs 0 0 (codepointPairsLoop cm
            (glyphIdToJsonId ((tableOrder (collect cm ms ranges).glyphs).map Prod.fst))
            0 0 (allCps ranges)) := by
  have hperm := keys_tableOrder_perm (collect cm ms ranges).glyphs
  have hmemg : g ∈ (collect cm ms ranges).glyphs.map Prod.fst :=
    (mem_keys_collect cm ms ranges g).mpr ⟨a, ha, hga⟩
  have hnd : ((collect cm ms ranges).glyphs.map Prod.fst).Nodup :=
    nodup_keys_collect cm ms ranges
  have hd := decode_codepointPairs cm
    (glyphIdToJsonId ((tableOrder (collect cm ms ranges).glyphs).map Prod.fst))
    (allCps ranges) 0 0
  simp only [Nat.cast_zero] at hd
  refine ⟨?_, ?_, ?_⟩
  · exact List.count_eq_one_of_mem (hperm.nodup_iff.mpr hnd) (hperm.mem_iff.mpr hmemg)
  · rw [hd]
    exact List.mem_map.mpr ⟨a,
      List.mem_filter.mpr ⟨ha, by rw [hga]; exact bne_iff_ne.mpr hg⟩,
      by rw [hga]⟩
  · rw [hd]
    exact List.mem_map.mpr ⟨b,
      List.mem_filter.mpr ⟨hb, by rw [hgb]; exact bne_iff_ne.mpr hg⟩,
      by rw [hgb]⟩

/-- C7 witness: two codepoints sharing glyph 7. -/
theorem c7_dedup_witness :
    ((tableOrder (collect cm7 msZero [(65, 66)]).glyphs).map Prod.fst).count 7 = 1
    ∧ ((65 : Int),
        (glyphIdToJsonId ((tableOrder (collect cm7 msZero [(65, 66)]).glyphs).map Prod.fst) 7 : Int))
        ∈ decodePairs 0 0 (codepointPairsLoop cm7
            (glyphIdToJsonId ((tableOrder (collect cm7 msZero [(65, 66)]).glyphs).map Prod.fst))
            0 0 (allCps [(65, 66)]))
    ∧ ((66 : Int),
        (glyphIdToJsonId ((tableOrder (collect cm7 msZero [(65, 66)]).glyphs).map Prod.fst) 7 : Int))
        ∈ decodePairs 0 0 (codepointPairsLoop cm7
            (glyphIdToJsonId ((tableOrder (collect cm7 msZero [(65, 66)]).glyphs).map Prod.fst))
            0 0 (allCps [(65, 66)])) :=
  c7_dedup cm7 msZero [(65, 66)] 65 66 7 (by decide) (by decide) (by decide)
    rfl rfl (by decide)

/-- C8: the digit guard in ParseInt is `ch < '0' && ch > '9'`, which no
character satisfies, so malformed numeric arguments are never rejected: the
string "abc" (bytes 97, 98, 99) parses to 5451, the empty string parses
to 0, and ParseInt returns a value on every input. -/
theorem c8_malformed_accepted :
    ParseInt [97, 98, 99] = some 5451
    ∧ ParseInt [] = some 0
    ∧ ∀ s : List Nat, (ParseInt s).isSome = true := by
  refine ⟨by decide, by decide, fun s => parseIntRun_isSome s 0⟩

/-- C9 counterexample: codepoint 65 maps to glyph 50 and codepoint 66 to
glyph 10; the rect list is built in first-encounter order (glyph 50 gets
rect 0, glyph 10 gets rect 1), so traversed in the table iteration order
(increasing glyph index) the rect indices read [1, 0], not [0, 1] — the rect
list is not in the table order. -/
theorem c9_counterexample :
    (collect cm9 msOne [(65, 66)]).glyphs.map (fun p => p.2.rectIndex)
        = [some 0, some 1]
    ∧ (tableOrder (collect cm9 msOne [(65, 66)]).glyphs).map (fun p => p.2.rectIndex)
        = [some 1, some 0]
    ∧ (tableOrder (collect cm9 msOne [(65, 66)]).glyphs).filterMap (fun p => p.2.rectIndex)
        ≠ List.range (collect cm9 msOne [(65, 66)]).rects.length := by
  refine ⟨by decide, by decide, by decide⟩

/-- C9 (amended): the rect list is one-to-one with the non-empty glyph
records in first-encounter (collection) order: reading the stored rect
indices in insertion order yields 0, 1, 2, ..., and the rect list is exactly
the padded dimensions of the non-empty glyph records in that same order. -/
theorem c9_first_encounter_order (cm : Nat → Nat) (ms : Nat → GlyphMetrics)
    (ranges : List (Nat × Nat)) :
    (collect cm ms ranges).glyphs.filterMap (fun p => p.2.rectIndex)
        = List.range (collect cm ms ranges).rects.length
    ∧ (collect cm ms ranges).rects
        = ((collect cm ms ranges).glyphs.filter
            (fun p => p.2.width * p.2.height != 0)).map
            (fun p => Rect.mk (p.2.width + 2 * RECT_PAD) (p.2.height + 2 * RECT_PAD)) := by
  have h := foldl_rectInv cm ms (allCps ranges) ⟨[], [], 0, 0⟩ ⟨rfl, rfl⟩
  exact ⟨h.1, h.2⟩

/-- C9 amended-claim witness at the out-of-order charmap. -/
theorem c9_first_encounter_order_witness :
    (collect cm9 msOne [(65, 66)]).glyphs.filterMap (fun p => p.2.rectIndex)
        = List.range (collect cm9 msOne [(65, 66)]).rects.length
    ∧ (collect cm9 msOne [(65, 66)]).rects
        = ((collect cm9 msOne [(65, 66)]).glyphs.filter
            (fun p => p.2.width * p.2.height != 0)).map
            (fun p => Rect.mk (p.2.width + 2 * RECT_PAD) (p.2.height + 2 * RECT_PAD)) :=
  c9_first_encounter_order cm9 msOne [(65, 66)]

/-- C10: auto-discovery reports the no-charmap message and exits non-zero
exactly when the first codepoint returned by the charmap enumeration is 0 —
which is also the case for a genuinely non-empty charmap whose first mapped
codepoint is 0, such as [(0, 5), (1, 6)]. -/
theorem c10_first_char_zero_rejected :
    (∀ ents : List (Nat × Nat),
        (resolveAuto ents = Except.error noCharmapMsg
          ∧ autoDiscoverExit ents = -1)
          ↔ ftFirstChar ents = 0)
    ∧ resolveAuto [(0, 5), (1, 6)] = Except.error noCharmapMsg
    ∧ autoDiscoverExit [(0, 5), (1, 6)] = -1
    ∧ [(0, 5), (1, 6)] ≠ ([] : List (Nat × Nat)) := by
  refine ⟨?_, rfl, by decide, by decide⟩
  intro ents
  match ents with
  | [] => simp [resolveAuto, autoDiscoverExit, ftFirstChar]
  | (c, gi) :: rest =>
      by_cases hc : c = 0
      · subst hc
        simp [resolveAuto, autoDiscoverExit, ftFirstChar]
      · simp [resolveAuto, autoDiscoverExit, ftFirstChar, hc]

end AtlasGen
